import Mathlib

set_option maxHeartbeats 1000000

/-
Verification of the UTF conversion engine in src/utf_convert.cpp.

The C++ routines work on raw bytes: every entry point reinterprets the
char32_t / char16_t buffer as a byte array, and the unions utf32_character /
utf16_character expose a code unit's bytes in increasing address order
v[0], v[1], ... .  The embedding therefore represents a char32_t element as
its four bytes and a char16_t element as its two bytes, which keeps the
model independent of the host machine's byte order.  Bytes are natural
numbers; all masking in the source clears sign-extension bits before they
matter, so byte values below 256 behave exactly as the C++ char arithmetic.
-/

/-- A char32_t element viewed through the utf32_character union: the four
bytes v[0]..v[3] in increasing address order. -/
structure Utf32Char where
  v0 : Nat
  v1 : Nat
  v2 : Nat
  v3 : Nat
deriving DecidableEq

/-- A char16_t element viewed through the utf16_character union: the two
bytes v[0], v[1] in increasing address order. -/
structure Utf16Char where
  v0 : Nat
  v1 : Nat
deriving DecidableEq

/-- Modelled from the spec: the UTF_ENDIAN enumeration is declared in
utf_convert.hpp, which is not part of the snapshot; the spec describes it as
the closed enumeration of big and little endian.  A C++ unscoped enum value
is an integer, so the type is modelled as Nat with the two recognized
members taking the default enumerator values 0 and 1; any other Nat models
an enum value outside the recognized members. -/
def UTF_ENDIAN_BIG_ENDIAN : Nat := 0

/-- The little-endian member of the UTF_ENDIAN enumeration (see
UTF_ENDIAN_BIG_ENDIAN for the modelling of the enum). -/
def UTF_ENDIAN_LITTLE_ENDIAN : Nat := 1

/-- get_u16_endian_value (lines 19-28): assemble a 16-bit value from the two
bytes of a UTF-16 code unit according to the given endianness.  The C++
switch has no case for other enum values (control falls off the end, which
is undefined); that situation is modelled as 0 and no claim depends on it. -/
def get_u16_endian_value (src : Utf16Char) (endian : Nat) : Nat :=
  if endian == UTF_ENDIAN_BIG_ENDIAN then (src.v0 <<< 8) ||| src.v1
  else if endian == UTF_ENDIAN_LITTLE_ENDIAN then (src.v1 <<< 8) ||| src.v0
  else 0

/-- The 32-bit value assembled from the four bytes of a char32_t element
(lines 38-45 of convert_u32str_to_u8str_without_bom); the unsupported-endian
branch of lines 46-48 is kept in the caller. -/
def u32_endian_value (cur : Utf32Char) (endian : Nat) : Nat :=
  if endian == UTF_ENDIAN_BIG_ENDIAN then
    (cur.v0 <<< 24) ||| (cur.v1 <<< 16) ||| (cur.v2 <<< 8) ||| cur.v3
  else
    (cur.v3 <<< 24) ||| (cur.v2 <<< 16) ||| (cur.v1 <<< 8) ||| cur.v0

/-- convert_u32str_to_u8str_without_bom (lines 30-93).  The C++ routine
returns a success flag and appends bytes to the target string; the model
returns the flag together with the bytes appended by this call, so that on
failure the bytes already emitted for earlier elements are still reported
(the fail-fast, possibly-partial-output behavior of the source). -/
def convert_u32str_to_u8str_without_bom : List Utf32Char → Nat → Bool × List Nat
  | [], _ => (true, [])
  | cur :: rest, endian =>
    if endian = UTF_ENDIAN_BIG_ENDIAN ∨ endian = UTF_ENDIAN_LITTLE_ENDIAN then
      let value := u32_endian_value cur endian
      if value < 0x80 then
        let r := convert_u32str_to_u8str_without_bom rest endian
        (r.1, value :: r.2)
      else if value < 0x800 then
        let r := convert_u32str_to_u8str_without_bom rest endian
        (r.1, (((value >>> 6) &&& 0x1f) ||| 0xc0) ::
              ((value &&& 0x3f) ||| 0x80) :: r.2)
      else if value < 0x10000 then
        let r := convert_u32str_to_u8str_without_bom rest endian
        (r.1, (((value >>> 12) &&& 0x0f) ||| 0xe0) ::
              (((value >>> 6) &&& 0x3f) ||| 0x80) ::
              ((value &&& 0x3f) ||| 0x80) :: r.2)
      else if value < 0x110000 then
        let r := convert_u32str_to_u8str_without_bom rest endian
        (r.1, (((value >>> 18) &&& 0x07) ||| 0xf0) ::
              (((value >>> 12) &&& 0x3f) ||| 0x80) ::
              (((value >>> 6) &&& 0x3f) ||| 0x80) ::
              ((value &&& 0x3f) ||| 0x80) :: r.2)
      else (false, [])
    else (false, [])

/-- convert_u16str_to_u8str_without_bom (lines 95-139), with the same
flag-plus-emitted-bytes convention as the UTF-32 encoder.  In the surrogate
branch the C++ subtractions high - 0xd800 and low - 0xdc00 act on values
already checked to be at least 0xd800 resp. 0xdc00, so Nat subtraction is
exact. -/
def convert_u16str_to_u8str_without_bom : List Utf16Char → Nat → Bool × List Nat
  | [], _ => (true, [])
  | cur :: rest, endian =>
    let value := get_u16_endian_value cur endian
    if value < 0x80 then
      let r := convert_u16str_to_u8str_without_bom rest endian
      (r.1, value :: r.2)
    else if value < 0x800 then
      let r := convert_u16str_to_u8str_without_bom rest endian
      (r.1, (((value >>> 6) &&& 0x1f) ||| 0xc0) ::
            ((value &&& 0x3f) ||| 0x80) :: r.2)
    else if 0xd800 ≤ value ∧ value < 0xdc00 then
      match rest with
      | [] => (false, [])
      | cur2 :: rest2 =>
        let low := get_u16_endian_value cur2 endian
        if low < 0xdc00 then (false, [])
        else
          let code_point := (((value - 0xd800) <<< 10) ||| (low - 0xdc00)) + 0x10000
          let r := convert_u16str_to_u8str_without_bom rest2 endian
          (r.1, ((code_point >>> 18) ||| 0xf0) ::
                (((code_point >>> 12) &&& 0x3f) ||| 0x80) ::
                (((code_point >>> 6) &&& 0x3f) ||| 0x80) ::
                ((code_point &&& 0x3f) ||| 0x80) :: r.2)
    else
      let r := convert_u16str_to_u8str_without_bom rest endian
      (r.1, (((value >>> 12) &&& 0x0f) ||| 0xe0) ::
            (((value >>> 6) &&& 0x3f) ||| 0x80) ::
            ((value &&& 0x3f) ||| 0x80) :: r.2)

/-- get_u32_str_bom (lines 141-158): the char32_t whose bytes are the BOM
pattern for the given endianness; for an unrecognized endianness the C++
returns the char32_t 0, i.e. four zero bytes. -/
def get_u32_str_bom (endian : Nat) : Utf32Char :=
  if endian == UTF_ENDIAN_BIG_ENDIAN then ⟨0x00, 0x00, 0xfe, 0xff⟩
  else if endian == UTF_ENDIAN_LITTLE_ENDIAN then ⟨0xff, 0xfe, 0x00, 0x00⟩
  else ⟨0, 0, 0, 0⟩

/-- match_u32_bom (lines 160-171): whether a char32_t's bytes are the BOM
pattern of the given candidate endianness. -/
def match_u32_bom (bom : Utf32Char) (endian : Nat) : Bool :=
  if bom.v0 == 0x00 && bom.v1 == 0x00 && bom.v2 == 0xfe && bom.v3 == 0xff then
    endian == UTF_ENDIAN_BIG_ENDIAN
  else if bom.v0 == 0xff && bom.v1 == 0xfe && bom.v2 == 0x00 && bom.v3 == 0x00 then
    endian == UTF_ENDIAN_LITTLE_ENDIAN
  else false

/-- match_u16_bom (lines 173-182): whether a char16_t's bytes are the BOM
pattern of the given candidate endianness. -/
def match_u16_bom (bom : Utf16Char) (endian : Nat) : Bool :=
  if bom.v0 == 0xfe && bom.v1 == 0xff then endian == UTF_ENDIAN_BIG_ENDIAN
  else if bom.v0 == 0xff && bom.v1 == 0xfe then endian == UTF_ENDIAN_LITTLE_ENDIAN
  else false

/-- convert_u8str_to_u32str_little_endian (lines 184-269): decode UTF-8
bytes into char32_t elements whose bytes are laid out little-endian
(v[0] is the least significant byte).  Same flag-plus-emitted convention. -/
def convert_u8str_to_u32str_little_endian : List Nat → Bool × List Utf32Char
  | [] => (true, [])
  | b0 :: rest =>
    if (b0 &&& 0xf0) == 0xf0 then
      match rest with
      | b1 :: b2 :: b3 :: rest3 =>
        let ch : Utf32Char :=
          ⟨((b2 &&& 0x03) <<< 6) ||| (b3 &&& 0x3f),
           ((b1 &&& 0x0f) <<< 4) ||| ((b2 &&& 0x3c) >>> 2),
           ((b0 &&& 0x07) <<< 2) ||| ((b1 &&& 0x30) >>> 4),
           0⟩
        let r := convert_u8str_to_u32str_little_endian rest3
        (r.1, ch :: r.2)
      | _ => (false, [])
    else if (b0 &&& 0xe0) == 0xe0 then
      match rest with
      | b1 :: b2 :: rest2 =>
        let ch : Utf32Char :=
          ⟨((b1 &&& 0x03) <<< 6) ||| (b2 &&& 0x3f),
           ((b0 &&& 0x0f) <<< 4) ||| ((b1 &&& 0x3c) >>> 2),
           0, 0⟩
        let r := convert_u8str_to_u32str_little_endian rest2
        (r.1, ch :: r.2)
      | _ => (false, [])
    else if (b0 &&& 0xc0) == 0xc0 then
      match rest with
      | b1 :: rest1 =>
        let ch : Utf32Char :=
          ⟨((b0 &&& 0x03) <<< 6) ||| (b1 &&& 0x3f),
           (b0 &&& 0x1c) >>> 2,
           0, 0⟩
        let r := convert_u8str_to_u32str_little_endian rest1
        (r.1, ch :: r.2)
      | _ => (false, [])
    else if (b0 &&& 0x7f) == b0 then
      let ch : Utf32Char := ⟨b0, 0, 0, 0⟩
      let r := convert_u8str_to_u32str_little_endian rest
      (r.1, ch :: r.2)
    else (false, [])

/-- convert_u8str_to_u32str_big_endian (lines 271-356): identical control
flow to the little-endian variant, with the output bytes mirrored (v[3] is
the least significant byte). -/
def convert_u8str_to_u32str_big_endian : List Nat → Bool × List Utf32Char
  | [] => (true, [])
  | b0 :: rest =>
    if (b0 &&& 0xf0) == 0xf0 then
      match rest with
      | b1 :: b2 :: b3 :: rest3 =>
        let ch : Utf32Char :=
          ⟨0,
           ((b0 &&& 0x07) <<< 2) ||| ((b1 &&& 0x30) >>> 4),
           ((b1 &&& 0x0f) <<< 4) ||| ((b2 &&& 0x3c) >>> 2),
           ((b2 &&& 0x03) <<< 6) ||| (b3 &&& 0x3f)⟩
        let r := convert_u8str_to_u32str_big_endian rest3
        (r.1, ch :: r.2)
      | _ => (false, [])
    else if (b0 &&& 0xe0) == 0xe0 then
      match rest with
      | b1 :: b2 :: rest2 =>
        let ch : Utf32Char :=
          ⟨0, 0,
           ((b0 &&& 0x0f) <<< 4) ||| ((b1 &&& 0x3c) >>> 2),
           ((b1 &&& 0x03) <<< 6) ||| (b2 &&& 0x3f)⟩
        let r := convert_u8str_to_u32str_big_endian rest2
        (r.1, ch :: r.2)
      | _ => (false, [])
    else if (b0 &&& 0xc0) == 0xc0 then
      match rest with
      | b1 :: rest1 =>
        let ch : Utf32Char :=
          ⟨0, 0,
           (b0 &&& 0x1c) >>> 2,
           ((b0 &&& 0x03) <<< 6) ||| (b1 &&& 0x3f)⟩
        let r := convert_u8str_to_u32str_big_endian rest1
        (r.1, ch :: r.2)
      | _ => (false, [])
    else if (b0 &&& 0x7f) == b0 then
      let ch : Utf32Char := ⟨0, 0, 0, b0⟩
      let r := convert_u8str_to_u32str_big_endian rest
      (r.1, ch :: r.2)
    else (false, [])

/-- utf_convert::to_u8string for a u32string without BOM (lines 359-369):
clears the target (the prev argument models whatever the caller's target
held before the call, discarded by target.clear()) and delegates to the
non-BOM converter. -/
def to_u8string_u32 (u32str_without_bom : List Utf32Char) (u32str_endian : Nat)
    (_prev : List Nat) : Bool × List Nat :=
  convert_u32str_to_u8str_without_bom u32str_without_bom u32str_endian

/-- utf_convert::to_u8string for a u16string without BOM (lines 402-411). -/
def to_u8string_u16 (u16str : List Utf16Char) (u16str_endian : Nat)
    (_prev : List Nat) : Bool × List Nat :=
  convert_u16str_to_u8str_without_bom u16str u16str_endian

/-- utf_convert::to_u8string for a u16string with BOM (lines 413-438).  The
source matches the BOM against u16str_with_bom[1] - the second code unit -
while the converted range starts at data() + 2 with size() - 1 units, i.e.
all units after the first.  When the buffer holds a single unit,
operator[] at index 1 of std::u16string yields the null terminator, whose
bytes are zero; getD 1 with the zero unit models this. -/
def to_u8string_u16_bom (u16str_with_bom : List Utf16Char) : Bool × List Nat :=
  if u16str_with_bom.isEmpty then (false, [])
  else if match_u16_bom (u16str_with_bom.getD 1 ⟨0, 0⟩) UTF_ENDIAN_BIG_ENDIAN then
    convert_u16str_to_u8str_without_bom (u16str_with_bom.drop 1) UTF_ENDIAN_BIG_ENDIAN
  else if match_u16_bom (u16str_with_bom.getD 1 ⟨0, 0⟩) UTF_ENDIAN_LITTLE_ENDIAN then
    convert_u16str_to_u8str_without_bom (u16str_with_bom.drop 1) UTF_ENDIAN_LITTLE_ENDIAN
  else (false, [])

/-- utf_convert::to_u32string (lines 440-454): clears the target, optionally
pushes the BOM element for the target endianness, then runs the decoder
variant selected by the target endianness (little-endian when the argument
equals the little-endian member, the big-endian variant for every other
value). -/
def to_u32string (u8str : List Nat) (target_endian : Nat) (add_bom : Bool) :
    Bool × List Utf32Char :=
  let init := if add_bom then [get_u32_str_bom target_endian] else []
  if target_endian == UTF_ENDIAN_LITTLE_ENDIAN then
    let r := convert_u8str_to_u32str_little_endian u8str
    (r.1, init ++ r.2)
  else
    let r := convert_u8str_to_u32str_big_endian u8str
    (r.1, init ++ r.2)

/-- Claim-side layout: the four bytes of a 32-bit value laid out in memory
per the given endianness.  This is the formalization of the claims' phrase
"the sequence laid out per E", not a translation of source code. -/
def u32CharOfValue (endian : Nat) (cp : Nat) : Utf32Char :=
  if endian == UTF_ENDIAN_BIG_ENDIAN then
    ⟨cp / 2 ^ 24 % 256, cp / 2 ^ 16 % 256, cp / 2 ^ 8 % 256, cp % 256⟩
  else
    ⟨cp % 256, cp / 2 ^ 8 % 256, cp / 2 ^ 16 % 256, cp / 2 ^ 24 % 256⟩

/-- Claim-side layout: the two bytes of a 16-bit value laid out per the
given endianness. -/
def u16CharOfValue (endian : Nat) (v : Nat) : Utf16Char :=
  if endian == UTF_ENDIAN_BIG_ENDIAN then ⟨v / 2 ^ 8 % 256, v % 256⟩
  else ⟨v % 256, v / 2 ^ 8 % 256⟩

/-- Claim-side failure condition for the UTF-8 decoder, following the words
of claim C5: walking the input by lead-byte classification, the decode fails
exactly when some position reached as a lead byte either carries a byte
matching none of the lead masks while having its high bit set, or classifies
to a sequence length needing more bytes than remain. -/
def u8FailSpec : List Nat → Bool
  | [] => false
  | b0 :: rest =>
    if (b0 &&& 0xf0) == 0xf0 then
      if rest.length < 3 then true else u8FailSpec (rest.drop 3)
    else if (b0 &&& 0xe0) == 0xe0 then
      if rest.length < 2 then true else u8FailSpec (rest.drop 2)
    else if (b0 &&& 0xc0) == 0xc0 then
      if rest.length < 1 then true else u8FailSpec (rest.drop 1)
    else if (b0 &&& 0x7f) == b0 then u8FailSpec rest
    else true
  termination_by l => l.length
  decreasing_by
    all_goals simp [List.length_drop]
    all_goals omega

/-
Arithmetic helpers: the source's mask / shift / or expressions rewritten as
division, remainder and addition, so that omega can finish range goals.
-/

/-- Masking with 63 is remainder modulo 64. -/
theorem and_mod_64 (x : Nat) : x &&& 63 = x % 64 := by
  have h := Nat.and_pow_two_sub_one_eq_mod x 6
  norm_num at h
  exact h

/-- Masking with 31 is remainder modulo 32. -/
theorem and_mod_32 (x : Nat) : x &&& 31 = x % 32 := by
  have h := Nat.and_pow_two_sub_one_eq_mod x 5
  norm_num at h
  exact h

/-- Masking with 15 is remainder modulo 16. -/
theorem and_mod_16 (x : Nat) : x &&& 15 = x % 16 := by
  have h := Nat.and_pow_two_sub_one_eq_mod x 4
  norm_num at h
  exact h

/-- Masking with 7 is remainder modulo 8. -/
theorem and_mod_8 (x : Nat) : x &&& 7 = x % 8 := by
  have h := Nat.and_pow_two_sub_one_eq_mod x 3
  norm_num at h
  exact h

/-- Setting the 0x80 bits on a 6-bit value is addition. -/
theorem or_128 : ∀ x < 64, x ||| 128 = 128 + x := by decide

/-- Setting the 0xc0 bits on a 5-bit value is addition. -/
theorem or_192 : ∀ x < 32, x ||| 192 = 192 + x := by decide

/-- Setting the 0xe0 bits on a 4-bit value is addition. -/
theorem or_224 : ∀ x < 16, x ||| 224 = 224 + x := by decide

/-- Setting the 0xf0 bits on a 3-bit value is addition. -/
theorem or_240 : ∀ x < 8, x ||| 240 = 240 + x := by decide

/-- Or of a multiple of 2^24 with a smaller value is addition. -/
theorem or_add_16777216 (a b : Nat) (hb : b < 16777216) :
    a * 16777216 ||| b = a * 16777216 + b := by
  have hb2 : b < 2 ^ 24 := by omega
  have h := Nat.mul_add_lt_is_or hb2 a
  norm_num at h
  rw [Nat.mul_comm a 16777216]
  exact h.symm

/-- Or of a multiple of 2^16 with a smaller value is addition. -/
theorem or_add_65536 (a b : Nat) (hb : b < 65536) :
    a * 65536 ||| b = a * 65536 + b := by
  have hb2 : b < 2 ^ 16 := by omega
  have h := Nat.mul_add_lt_is_or hb2 a
  norm_num at h
  rw [Nat.mul_comm a 65536]
  exact h.symm

/-- Or of a multiple of 256 with a smaller value is addition. -/
theorem or_add_256 (a b : Nat) (hb : b < 256) :
    a * 256 ||| b = a * 256 + b := by
  have hb2 : b < 2 ^ 8 := by omega
  have h := Nat.mul_add_lt_is_or hb2 a
  norm_num at h
  rw [Nat.mul_comm a 256]
  exact h.symm

/-- Or of a multiple of 1024 with a smaller value is addition. -/
theorem or_add_1024 (a b : Nat) (hb : b < 1024) :
    a * 1024 ||| b = a * 1024 + b := by
  have hb2 : b < 2 ^ 10 := by omega
  have h := Nat.mul_add_lt_is_or hb2 a
  norm_num at h
  rw [Nat.mul_comm a 1024]
  exact h.symm

/-- The continuation-byte expression of the encoders in closed form. -/
theorem enc_cont_byte (v : Nat) : (v &&& 0x3f) ||| 0x80 = 0x80 + v % 64 := by
  rw [and_mod_64]
  exact or_128 _ (by omega)

/-- The continuation-byte expression applied after a shift by 6. -/
theorem enc_cont6 (v : Nat) : ((v >>> 6) &&& 0x3f) ||| 0x80 = 0x80 + v / 64 % 64 := by
  rw [Nat.shiftRight_eq_div_pow]
  norm_num
  exact enc_cont_byte _

/-- The continuation-byte expression applied after a shift by 12. -/
theorem enc_cont12 (v : Nat) : ((v >>> 12) &&& 0x3f) ||| 0x80 = 0x80 + v / 4096 % 64 := by
  rw [Nat.shiftRight_eq_div_pow]
  norm_num
  exact enc_cont_byte _

/-- The two-byte lead expression of the encoders in closed form. -/
theorem enc_lead2 (v : Nat) (h : v < 0x800) :
    ((v >>> 6) &&& 0x1f) ||| 0xc0 = 0xc0 + v / 64 := by
  rw [Nat.shiftRight_eq_div_pow, and_mod_32]
  norm_num
  rw [Nat.mod_eq_of_lt (by omega)]
  exact or_192 _ (by omega)

/-- The three-byte lead expression of the encoders in closed form. -/
theorem enc_lead3 (v : Nat) (h : v < 0x10000) :
    ((v >>> 12) &&& 0x0f) ||| 0xe0 = 0xe0 + v / 4096 := by
  rw [Nat.shiftRight_eq_div_pow, and_mod_16]
  norm_num
  rw [Nat.mod_eq_of_lt (by omega)]
  exact or_224 _ (by omega)

/-- The four-byte lead expression of the UTF-32 encoder in closed form. -/
theorem enc_lead4 (v : Nat) (h : v < 0x200000) :
    ((v >>> 18) &&& 0x07) ||| 0xf0 = 0xf0 + v / 262144 := by
  rw [Nat.shiftRight_eq_div_pow, and_mod_8]
  norm_num
  rw [Nat.mod_eq_of_lt (by omega)]
  exact or_240 _ (by omega)

/-- The unmasked four-byte lead expression of the UTF-16 encoder. -/
theorem enc_lead4_nomask (v : Nat) (h : v < 0x200000) :
    (v >>> 18) ||| 0xf0 = 0xf0 + v / 262144 := by
  rw [Nat.shiftRight_eq_div_pow]
  norm_num
  exact or_240 _ (by omega)

/-- Assembling the four laid-out bytes of a 32-bit value per the same
endianness recovers the value. -/
theorem u32_endian_value_layout (e cp : Nat) (he : e < 2) (hcp : cp < 4294967296) :
    u32_endian_value (u32CharOfValue e cp) e = cp := by
  interval_cases e <;>
  · simp only [u32CharOfValue, u32_endian_value, UTF_ENDIAN_BIG_ENDIAN,
      UTF_ENDIAN_LITTLE_ENDIAN]
    norm_num
    rw [Nat.shiftLeft_eq, Nat.shiftLeft_eq, Nat.shiftLeft_eq]
    norm_num [Nat.or_assoc]
    rw [or_add_256 (cp / 256 % 256) (cp % 256) (by omega)]
    rw [or_add_65536 (cp / 65536 % 256) (cp / 256 % 256 * 256 + cp % 256) (by omega)]
    rw [or_add_16777216 (cp / 16777216 % 256)
      (cp / 65536 % 256 * 65536 + (cp / 256 % 256 * 256 + cp % 256)) (by omega)]
    omega

/-- Assembling the two laid-out bytes of a 16-bit value per the same
endianness recovers the value. -/
theorem get_u16_endian_value_layout (e v : Nat) (he : e < 2) (hv : v < 65536) :
    get_u16_endian_value (u16CharOfValue e v) e = v := by
  interval_cases e <;>
  · simp only [get_u16_endian_value, u16CharOfValue, UTF_ENDIAN_BIG_ENDIAN,
      UTF_ENDIAN_LITTLE_ENDIAN]
    norm_num
    rw [Nat.shiftLeft_eq]
    norm_num
    rw [or_add_256 (v / 256 % 256) (v % 256) (by omega)]
    omega

/-- Step of the UTF-32 encoder: a value below 0x80 emits one byte. -/
theorem u32_step_1byte (cur : Utf32Char) (rest : List Utf32Char) (e : Nat)
    (he : e < 2) (h : u32_endian_value cur e < 0x80) :
    convert_u32str_to_u8str_without_bom (cur :: rest) e =
      ((convert_u32str_to_u8str_without_bom rest e).1,
       u32_endian_value cur e :: (convert_u32str_to_u8str_without_bom rest e).2) := by
  simp only [convert_u32str_to_u8str_without_bom]
  rw [if_pos (by unfold UTF_ENDIAN_BIG_ENDIAN UTF_ENDIAN_LITTLE_ENDIAN; omega)]
  rw [if_pos h]

/-- Step of the UTF-32 encoder: a value in the two-byte range. -/
theorem u32_step_2byte (cur : Utf32Char) (rest : List Utf32Char) (e : Nat)
    (he : e < 2) (h1 : 0x80 ≤ u32_endian_value cur e)
    (h2 : u32_endian_value cur e < 0x800) :
    convert_u32str_to_u8str_without_bom (cur :: rest) e =
      ((convert_u32str_to_u8str_without_bom rest e).1,
       (0xc0 + u32_endian_value cur e / 64) ::
       (0x80 + u32_endian_value cur e % 64) ::
       (convert_u32str_to_u8str_without_bom rest e).2) := by
  simp only [convert_u32str_to_u8str_without_bom]
  rw [if_pos (by unfold UTF_ENDIAN_BIG_ENDIAN UTF_ENDIAN_LITTLE_ENDIAN; omega)]
  rw [if_neg (by omega), if_pos h2, enc_lead2 _ h2, enc_cont_byte]

/-- Step of the UTF-32 encoder: a value in the three-byte range. -/
theorem u32_step_3byte (cur : Utf32Char) (rest : List Utf32Char) (e : Nat)
    (he : e < 2) (h1 : 0x800 ≤ u32_endian_value cur e)
    (h2 : u32_endian_value cur e < 0x10000) :
    convert_u32str_to_u8str_without_bom (cur :: rest) e =
      ((convert_u32str_to_u8str_without_bom rest e).1,
       (0xe0 + u32_endian_value cur e / 4096) ::
       (0x80 + u32_endian_value cur e / 64 % 64) ::
       (0x80 + u32_endian_value cur e % 64) ::
       (convert_u32str_to_u8str_without_bom rest e).2) := by
  simp only [convert_u32str_to_u8str_without_bom]
  rw [if_pos (by unfold UTF_ENDIAN_BIG_ENDIAN UTF_ENDIAN_LITTLE_ENDIAN; omega)]
  rw [if_neg (by omega), if_neg (by omega), if_pos h2, enc_lead3 _ h2, enc_cont6,
    enc_cont_byte]

/-- Step of the UTF-32 encoder: a value in the four-byte range. -/
theorem u32_step_4byte (cur : Utf32Char) (rest : List Utf32Char) (e : Nat)
    (he : e < 2) (h1 : 0x10000 ≤ u32_endian_value cur e)
    (h2 : u32_endian_value cur e < 0x110000) :
    convert_u32str_to_u8str_without_bom (cur :: rest) e =
      ((convert_u32str_to_u8str_without_bom rest e).1,
       (0xf0 + u32_endian_value cur e / 262144) ::
       (0x80 + u32_endian_value cur e / 4096 % 64) ::
       (0x80 + u32_endian_value cur e / 64 % 64) ::
       (0x80 + u32_endian_value cur e % 64) ::
       (convert_u32str_to_u8str_without_bom rest e).2) := by
  simp only [convert_u32str_to_u8str_without_bom]
  rw [if_pos (by unfold UTF_ENDIAN_BIG_ENDIAN UTF_ENDIAN_LITTLE_ENDIAN; omega)]
  rw [if_neg (by omega), if_neg (by omega), if_neg (by omega), if_pos h2,
    enc_lead4 _ (by omega), enc_cont12, enc_cont6, enc_cont_byte]

/-- Step of the UTF-32 encoder: a value at or above 0x110000 fails at once,
emitting nothing for the failing element. -/
theorem u32_step_invalid (cur : Utf32Char) (rest : List Utf32Char) (e : Nat)
    (he : e < 2) (h : 0x110000 ≤ u32_endian_value cur e) :
    convert_u32str_to_u8str_without_bom (cur :: rest) e = (false, []) := by
  simp only [convert_u32str_to_u8str_without_bom]
  rw [if_pos (by unfold UTF_ENDIAN_BIG_ENDIAN UTF_ENDIAN_LITTLE_ENDIAN; omega)]
  rw [if_neg (by omega), if_neg (by omega), if_neg (by omega), if_neg (by omega)]

/-- Step of the UTF-32 encoder: an endianness outside the two recognized
members fails at once. -/
theorem u32_step_bad_endian (cur : Utf32Char) (rest : List Utf32Char) (e : Nat)
    (he : 2 ≤ e) :
    convert_u32str_to_u8str_without_bom (cur :: rest) e = (false, []) := by
  simp only [convert_u32str_to_u8str_without_bom]
  rw [if_neg (by unfold UTF_ENDIAN_BIG_ENDIAN UTF_ENDIAN_LITTLE_ENDIAN; omega)]

/-- Step of the UTF-16 encoder: a unit value below 0x80 emits one byte. -/
theorem u16_step_1byte (cur : Utf16Char) (rest : List Utf16Char) (e : Nat)
    (h : get_u16_endian_value cur e < 0x80) :
    convert_u16str_to_u8str_without_bom (cur :: rest) e =
      ((convert_u16str_to_u8str_without_bom rest e).1,
       get_u16_endian_value cur e :: (convert_u16str_to_u8str_without_bom rest e).2) := by
  rw [convert_u16str_to_u8str_without_bom.eq_def]
  simp only []
  rw [if_pos h]

/-- Step of the UTF-16 encoder: a unit value in the two-byte range. -/
theorem u16_step_2byte (cur : Utf16Char) (rest : List Utf16Char) (e : Nat)
    (h1 : 0x80 ≤ get_u16_endian_value cur e)
    (h2 : get_u16_endian_value cur e < 0x800) :
    convert_u16str_to_u8str_without_bom (cur :: rest) e =
      ((convert_u16str_to_u8str_without_bom rest e).1,
       (0xc0 + get_u16_endian_value cur e / 64) ::
       (0x80 + get_u16_endian_value cur e % 64) ::
       (convert_u16str_to_u8str_without_bom rest e).2) := by
  rw [convert_u16str_to_u8str_without_bom.eq_def]
  simp only []
  rw [if_neg (by omega), if_pos h2, enc_lead2 _ h2, enc_cont_byte]

/-- Step of the UTF-16 encoder: a unit value at or above 0x800 and outside
the lead-surrogate band falls through to the three-byte branch. -/
theorem u16_step_3byte (cur : Utf16Char) (rest : List Utf16Char) (e : Nat)
    (h1 : 0x800 ≤ get_u16_endian_value cur e)
    (h2 : get_u16_endian_value cur e < 0xd800 ∨ 0xdc00 ≤ get_u16_endian_value cur e)
    (h3 : get_u16_endian_value cur e < 0x10000) :
    convert_u16str_to_u8str_without_bom (cur :: rest) e =
      ((convert_u16str_to_u8str_without_bom rest e).1,
       (0xe0 + get_u16_endian_value cur e / 4096) ::
       (0x80 + get_u16_endian_value cur e / 64 % 64) ::
       (0x80 + get_u16_endian_value cur e % 64) ::
       (convert_u16str_to_u8str_without_bom rest e).2) := by
  rw [convert_u16str_to_u8str_without_bom.eq_def]
  simp only []
  rw [if_neg (by omega), if_neg (by omega), if_neg (by omega), enc_lead3 _ h3,
    enc_cont6, enc_cont_byte]

/-- Step of the UTF-16 encoder: a lead surrogate with no following unit
fails at once. -/
theorem u16_step_lone_lead (cur : Utf16Char) (e : Nat)
    (h1 : 0xd800 ≤ get_u16_endian_value cur e)
    (h2 : get_u16_endian_value cur e < 0xdc00) :
    convert_u16str_to_u8str_without_bom [cur] e = (false, []) := by
  rw [convert_u16str_to_u8str_without_bom.eq_def]
  simp only []
  rw [if_neg (by omega), if_neg (by omega), if_pos (by omega : _ ∧ _)]

/-- Step of the UTF-16 encoder: a lead surrogate followed by a unit whose
value is below 0xdc00 fails at once. -/
theorem u16_step_pair_invalid (cur cur2 : Utf16Char) (rest2 : List Utf16Char) (e : Nat)
    (h1 : 0xd800 ≤ get_u16_endian_value cur e)
    (h2 : get_u16_endian_value cur e < 0xdc00)
    (h3 : get_u16_endian_value cur2 e < 0xdc00) :
    convert_u16str_to_u8str_without_bom (cur :: cur2 :: rest2) e = (false, []) := by
  rw [convert_u16str_to_u8str_without_bom.eq_def]
  simp only []
  rw [if_neg (by omega), if_neg (by omega), if_pos (by omega : _ ∧ _), if_pos h3]

/-- Step of the UTF-16 encoder: a lead surrogate followed by any unit whose
value is at least 0xdc00 is combined and encoded as four bytes (source
form of the bytes). -/
theorem u16_step_pair_raw (cur cur2 : Utf16Char) (rest2 : List Utf16Char) (e : Nat)
    (h1 : 0xd800 ≤ get_u16_endian_value cur e)
    (h2 : get_u16_endian_value cur e < 0xdc00)
    (h3 : 0xdc00 ≤ get_u16_endian_value cur2 e) :
    convert_u16str_to_u8str_without_bom (cur :: cur2 :: rest2) e =
      ((convert_u16str_to_u8str_without_bom rest2 e).1,
       ((((((get_u16_endian_value cur e - 0xd800) <<< 10) |||
           (get_u16_endian_value cur2 e - 0xdc00)) + 0x10000) >>> 18) ||| 0xf0) ::
       (((((((get_u16_endian_value cur e - 0xd800) <<< 10) |||
           (get_u16_endian_value cur2 e - 0xdc00)) + 0x10000) >>> 12) &&& 0x3f) ||| 0x80) ::
       (((((((get_u16_endian_value cur e - 0xd800) <<< 10) |||
           (get_u16_endian_value cur2 e - 0xdc00)) + 0x10000) >>> 6) &&& 0x3f) ||| 0x80) ::
       ((((((get_u16_endian_value cur e - 0xd800) <<< 10) |||
           (get_u16_endian_value cur2 e - 0xdc00)) + 0x10000) &&& 0x3f) ||| 0x80) ::
       (convert_u16str_to_u8str_without_bom rest2 e).2) := by
  rw [convert_u16str_to_u8str_without_bom.eq_def]
  simp only []
  rw [if_neg (by omega), if_neg (by omega), if_pos (by omega : _ ∧ _), if_neg (by omega)]

/-- Step of the UTF-16 encoder: a lead surrogate followed by a trail
surrogate combines into the supplementary codepoint and emits its four-byte
sequence (closed form). -/
theorem u16_step_pair (cur cur2 : Utf16Char) (rest2 : List Utf16Char) (e : Nat)
    (h1 : 0xd800 ≤ get_u16_endian_value cur e)
    (h2 : get_u16_endian_value cur e < 0xdc00)
    (h3 : 0xdc00 ≤ get_u16_endian_value cur2 e)
    (h4 : get_u16_endian_value cur2 e < 0xe000) :
    convert_u16str_to_u8str_without_bom (cur :: cur2 :: rest2) e =
      ((convert_u16str_to_u8str_without_bom rest2 e).1,
       (0xf0 + ((get_u16_endian_value cur e - 0xd800) * 1024 +
                (get_u16_endian_value cur2 e - 0xdc00) + 0x10000) / 262144) ::
       (0x80 + ((get_u16_endian_value cur e - 0xd800) * 1024 +
                (get_u16_endian_value cur2 e - 0xdc00) + 0x10000) / 4096 % 64) ::
       (0x80 + ((get_u16_endian_value cur e - 0xd800) * 1024 +
                (get_u16_endian_value cur2 e - 0xdc00) + 0x10000) / 64 % 64) ::
       (0x80 + ((get_u16_endian_value cur e - 0xd800) * 1024 +
                (get_u16_endian_value cur2 e - 0xdc00) + 0x10000) % 64) ::
       (convert_u16str_to_u8str_without_bom rest2 e).2) := by
  rw [u16_step_pair_raw cur cur2 rest2 e h1 h2 h3]
  rw [Nat.shiftLeft_eq]
  norm_num
  rw [or_add_1024 _ _ (by omega)]
  rw [enc_lead4_nomask _ (by omega), enc_cont12, enc_cont6, enc_cont_byte]
  simp

/-
Decoder-side byte facts, each checked over the bounded byte shapes the
encoder produces.
-/

/-- A four-byte lead produced by the encoder satisfies the 0xf0 mask test. -/
theorem cls_lead4 : ∀ a < 8, (240 + a) &&& 0xf0 = 0xf0 := by decide

/-- A three-byte lead fails the 0xf0 mask test and passes the 0xe0 one. -/
theorem cls_lead3 : ∀ x < 16,
    ((224 + x) &&& 0xf0 ≠ 0xf0) ∧ ((224 + x) &&& 0xe0 = 0xe0) := by decide

/-- A two-byte lead fails the 0xf0 and 0xe0 mask tests and passes 0xc0. -/
theorem cls_lead2 : ∀ x < 32,
    ((192 + x) &&& 0xf0 ≠ 0xf0) ∧ ((192 + x) &&& 0xe0 ≠ 0xe0) ∧
    ((192 + x) &&& 0xc0 = 0xc0) := by decide

/-- An ASCII byte fails all three lead mask tests and equals its low bits. -/
theorem cls_ascii : ∀ b < 128,
    (b &&& 0xf0 ≠ 0xf0) ∧ (b &&& 0xe0 ≠ 0xe0) ∧ (b &&& 0xc0 ≠ 0xc0) ∧
    (b &&& 0x7f = b) := by decide

/-- High output byte of a decoded four-byte sequence. -/
theorem dec_hi4 : ∀ a < 8, ∀ b < 64,
    (((240 + a) &&& 0x07) <<< 2) ||| (((128 + b) &&& 0x30) >>> 4) = 4 * a + b / 16 := by
  decide

/-- Middle output byte of a decoded four-byte sequence. -/
theorem dec_mid4 : ∀ b < 64, ∀ c < 64,
    (((128 + b) &&& 0x0f) <<< 4) ||| (((128 + c) &&& 0x3c) >>> 2) = b % 16 * 16 + c / 4 := by
  decide

/-- Low output byte assembled from two continuation bytes. -/
theorem dec_lo : ∀ c < 64, ∀ d < 64,
    (((128 + c) &&& 0x03) <<< 6) ||| ((128 + d) &&& 0x3f) = c % 4 * 64 + d := by decide

/-- High output byte of a decoded three-byte sequence. -/
theorem dec_hi3 : ∀ x < 16, ∀ b < 64,
    (((224 + x) &&& 0x0f) <<< 4) ||| (((128 + b) &&& 0x3c) >>> 2) = x * 16 + b / 4 := by
  decide

/-- High output byte of a decoded two-byte sequence. -/
theorem dec_hi2 : ∀ x < 32, ((192 + x) &&& 0x1c) >>> 2 = x / 4 := by decide

/-- Low output byte of a decoded two-byte sequence. -/
theorem dec_lo2 : ∀ x < 32, ∀ b < 64,
    (((192 + x) &&& 0x03) <<< 6) ||| ((128 + b) &&& 0x3f) = x % 4 * 64 + b := by decide

/-- Little-endian decode of a single four-byte sequence. -/
theorem dec_le_4 (a b c d : Nat) (ha : a < 8) (hb : b < 64) (hc : c < 64) (hd : d < 64) :
    convert_u8str_to_u32str_little_endian [240 + a, 128 + b, 128 + c, 128 + d] =
      (true, [⟨c % 4 * 64 + d, b % 16 * 16 + c / 4, 4 * a + b / 16, 0⟩]) := by
  simp [convert_u8str_to_u32str_little_endian, cls_lead4 a ha, dec_hi4 a ha b hb,
    dec_mid4 b hb c hc, dec_lo c hc d hd]

/-- Little-endian decode of a single three-byte sequence. -/
theorem dec_le_3 (x b c : Nat) (hx : x < 16) (hb : b < 64) (hc : c < 64) :
    convert_u8str_to_u32str_little_endian [224 + x, 128 + b, 128 + c] =
      (true, [⟨b % 4 * 64 + c, x * 16 + b / 4, 0, 0⟩]) := by
  simp [convert_u8str_to_u32str_little_endian, (cls_lead3 x hx).1, (cls_lead3 x hx).2,
    dec_hi3 x hx b hb, dec_lo b hb c hc]

/-- Little-endian decode of a single two-byte sequence. -/
theorem dec_le_2 (x b : Nat) (hx : x < 32) (hb : b < 64) :
    convert_u8str_to_u32str_little_endian [192 + x, 128 + b] =
      (true, [⟨x % 4 * 64 + b, x / 4, 0, 0⟩]) := by
  simp [convert_u8str_to_u32str_little_endian, (cls_lead2 x hx).1, (cls_lead2 x hx).2.1,
    (cls_lead2 x hx).2.2, dec_hi2 x hx, dec_lo2 x hx b hb]

/-- Little-endian decode of a single ASCII byte. -/
theorem dec_le_1 (b : Nat) (hb : b < 128) :
    convert_u8str_to_u32str_little_endian [b] = (true, [⟨b, 0, 0, 0⟩]) := by
  simp [convert_u8str_to_u32str_little_endian, (cls_ascii b hb).1, (cls_ascii b hb).2.1,
    (cls_ascii b hb).2.2.1, (cls_ascii b hb).2.2.2]

/-- Big-endian decode of a single four-byte sequence. -/
theorem dec_be_4 (a b c d : Nat) (ha : a < 8) (hb : b < 64) (hc : c < 64) (hd : d < 64) :
    convert_u8str_to_u32str_big_endian [240 + a, 128 + b, 128 + c, 128 + d] =
      (true, [⟨0, 4 * a + b / 16, b % 16 * 16 + c / 4, c % 4 * 64 + d⟩]) := by
  simp [convert_u8str_to_u32str_big_endian, cls_lead4 a ha, dec_hi4 a ha b hb,
    dec_mid4 b hb c hc, dec_lo c hc d hd]

/-- Big-endian decode of a single three-byte sequence. -/
theorem dec_be_3 (x b c : Nat) (hx : x < 16) (hb : b < 64) (hc : c < 64) :
    convert_u8str_to_u32str_big_endian [224 + x, 128 + b, 128 + c] =
      (true, [⟨0, 0, x * 16 + b / 4, b % 4 * 64 + c⟩]) := by
  simp [convert_u8str_to_u32str_big_endian, (cls_lead3 x hx).1, (cls_lead3 x hx).2,
    dec_hi3 x hx b hb, dec_lo b hb c hc]

/-- Big-endian decode of a single two-byte sequence. -/
theorem dec_be_2 (x b : Nat) (hx : x < 32) (hb : b < 64) :
    convert_u8str_to_u32str_big_endian [192 + x, 128 + b] =
      (true, [⟨0, 0, x / 4, x % 4 * 64 + b⟩]) := by
  simp [convert_u8str_to_u32str_big_endian, (cls_lead2 x hx).1, (cls_lead2 x hx).2.1,
    (cls_lead2 x hx).2.2, dec_hi2 x hx, dec_lo2 x hx b hb]

/-- Big-endian decode of a single ASCII byte. -/
theorem dec_be_1 (b : Nat) (hb : b < 128) :
    convert_u8str_to_u32str_big_endian [b] = (true, [⟨0, 0, 0, b⟩]) := by
  simp [convert_u8str_to_u32str_big_endian, (cls_ascii b hb).1, (cls_ascii b hb).2.1,
    (cls_ascii b hb).2.2.1, (cls_ascii b hb).2.2.2]

/-- The UTF-32 encoder on the empty list. -/
theorem u32_conv_nil (e : Nat) :
    convert_u32str_to_u8str_without_bom [] e = (true, []) := by
  simp [convert_u32str_to_u8str_without_bom]

/-- Encoding a single one-byte-range element. -/
theorem u32_single_1byte (c : Utf32Char) (e : Nat) (he : e < 2)
    (h : u32_endian_value c e < 0x80) :
    convert_u32str_to_u8str_without_bom [c] e = (true, [u32_endian_value c e]) := by
  rw [u32_step_1byte c [] e he h, u32_conv_nil]

/-- Encoding a single two-byte-range element. -/
theorem u32_single_2byte (c : Utf32Char) (e : Nat) (he : e < 2)
    (h1 : 0x80 ≤ u32_endian_value c e) (h2 : u32_endian_value c e < 0x800) :
    convert_u32str_to_u8str_without_bom [c] e =
      (true, [0xc0 + u32_endian_value c e / 64, 0x80 + u32_endian_value c e % 64]) := by
  rw [u32_step_2byte c [] e he h1 h2, u32_conv_nil]

/-- Encoding a single three-byte-range element. -/
theorem u32_single_3byte (c : Utf32Char) (e : Nat) (he : e < 2)
    (h1 : 0x800 ≤ u32_endian_value c e) (h2 : u32_endian_value c e < 0x10000) :
    convert_u32str_to_u8str_without_bom [c] e =
      (true, [0xe0 + u32_endian_value c e / 4096,
              0x80 + u32_endian_value c e / 64 % 64,
              0x80 + u32_endian_value c e % 64]) := by
  rw [u32_step_3byte c [] e he h1 h2, u32_conv_nil]

/-- Encoding a single four-byte-range element. -/
theorem u32_single_4byte (c : Utf32Char) (e : Nat) (he : e < 2)
    (h1 : 0x10000 ≤ u32_endian_value c e) (h2 : u32_endian_value c e < 0x110000) :
    convert_u32str_to_u8str_without_bom [c] e =
      (true, [0xf0 + u32_endian_value c e / 262144,
              0x80 + u32_endian_value c e / 4096 % 64,
              0x80 + u32_endian_value c e / 64 % 64,
              0x80 + u32_endian_value c e % 64]) := by
  rw [u32_step_4byte c [] e he h1 h2, u32_conv_nil]

/-- to_u32string with little-endian target and no BOM is the little-endian
converter. -/
theorem to_u32string_le (u8 : List Nat) :
    to_u32string u8 1 false = convert_u8str_to_u32str_little_endian u8 := rfl

/-- to_u32string with big-endian target and no BOM is the big-endian
converter. -/
theorem to_u32string_be (u8 : List Nat) :
    to_u32string u8 0 false = convert_u8str_to_u32str_big_endian u8 := rfl

/-- Claim C1: for every codepoint in the Unicode range outside the surrogate
band and for each endianness, encoding the one-element UTF-32 sequence
(laid out per that endianness) to UTF-8 succeeds, and decoding the produced
bytes with the same target endianness and no BOM request succeeds and yields
exactly the one-element sequence again. -/
theorem C1_roundtrip (cp e : Nat) (he : e < 2) (h1 : cp < 0x110000)
    (h2 : cp < 0xd800 ∨ 0xe000 ≤ cp) :
    (to_u8string_u32 [u32CharOfValue e cp] e []).1 = true ∧
    to_u32string (to_u8string_u32 [u32CharOfValue e cp] e []).2 e false =
      (true, [u32CharOfValue e cp]) := by
  have hv : u32_endian_value (u32CharOfValue e cp) e = cp :=
    u32_endian_value_layout e cp he (by omega)
  interval_cases e
  · -- big-endian
    simp only [to_u8string_u32]
    by_cases hA : cp < 0x80
    · rw [u32_single_1byte _ _ (by omega) (by omega), hv]
      refine ⟨rfl, ?_⟩
      rw [to_u32string_be, dec_be_1 cp (by omega)]
      simp [u32CharOfValue, UTF_ENDIAN_BIG_ENDIAN]
      omega
    · by_cases hB : cp < 0x800
      · rw [u32_single_2byte _ _ (by omega) (by omega) (by omega), hv]
        refine ⟨rfl, ?_⟩
        rw [to_u32string_be, dec_be_2 (cp / 64) (cp % 64) (by omega) (by omega)]
        simp [u32CharOfValue, UTF_ENDIAN_BIG_ENDIAN]
        omega
      · by_cases hC : cp < 0x10000
        · rw [u32_single_3byte _ _ (by omega) (by omega) (by omega), hv]
          refine ⟨rfl, ?_⟩
          rw [to_u32string_be,
            dec_be_3 (cp / 4096) (cp / 64 % 64) (cp % 64) (by omega) (by omega) (by omega)]
          simp [u32CharOfValue, UTF_ENDIAN_BIG_ENDIAN]
          omega
        · rw [u32_single_4byte _ _ (by omega) (by omega) (by omega), hv]
          refine ⟨rfl, ?_⟩
          rw [to_u32string_be,
            dec_be_4 (cp / 262144) (cp / 4096 % 64) (cp / 64 % 64) (cp % 64)
              (by omega) (by omega) (by omega) (by omega)]
          simp [u32CharOfValue, UTF_ENDIAN_BIG_ENDIAN]
          omega
  · -- little-endian
    simp only [to_u8string_u32]
    by_cases hA : cp < 0x80
    · rw [u32_single_1byte _ _ (by omega) (by omega), hv]
      refine ⟨rfl, ?_⟩
      rw [to_u32string_le, dec_le_1 cp (by omega)]
      simp [u32CharOfValue, UTF_ENDIAN_BIG_ENDIAN]
      omega
    · by_cases hB : cp < 0x800
      · rw [u32_single_2byte _ _ (by omega) (by omega) (by omega), hv]
        refine ⟨rfl, ?_⟩
        rw [to_u32string_le, dec_le_2 (cp / 64) (cp % 64) (by omega) (by omega)]
        simp [u32CharOfValue, UTF_ENDIAN_BIG_ENDIAN]
        omega
      · by_cases hC : cp < 0x10000
        · rw [u32_single_3byte _ _ (by omega) (by omega) (by omega), hv]
          refine ⟨rfl, ?_⟩
          rw [to_u32string_le,
            dec_le_3 (cp / 4096) (cp / 64 % 64) (cp % 64) (by omega) (by omega) (by omega)]
          simp [u32CharOfValue, UTF_ENDIAN_BIG_ENDIAN]
          omega
        · rw [u32_single_4byte _ _ (by omega) (by omega) (by omega), hv]
          refine ⟨rfl, ?_⟩
          rw [to_u32string_le,
            dec_le_4 (cp / 262144) (cp / 4096 % 64) (cp / 64 % 64) (cp % 64)
              (by omega) (by omega) (by omega) (by omega)]
          simp [u32CharOfValue, UTF_ENDIAN_BIG_ENDIAN]
          omega

/-- Witness for C1_roundtrip at cp 0x1F600, little-endian. -/
theorem C1_roundtrip_witness :
    (1 < 2 ∧ 0x1F600 < 0x110000 ∧ (0x1F600 < 0xd800 ∨ 0xe000 ≤ 0x1F600)) ∧
    ((to_u8string_u32 [u32CharOfValue 1 0x1F600] 1 []).1 = true ∧
     to_u32string (to_u8string_u32 [u32CharOfValue 1 0x1F600] 1 []).2 1 false =
       (true, [u32CharOfValue 1 0x1F600])) :=
  ⟨⟨by decide, by decide, by decide⟩,
   C1_roundtrip 0x1F600 1 (by decide) (by decide) (by decide)⟩

/-- Claim C4: the UTF-32 encoder selects the byte count by the standard
range thresholds and emits exactly the minimal standard-pattern bytes (the
lead byte carries the value's high bits verbatim, each continuation byte
carries the next six bits), and the boundary codepoints encode to lengths
1, 2, 2, 3, 3, 4 and 4. -/
theorem C4_byte_patterns (v e : Nat) (he : e < 2) (hv : v < 0x110000) :
    to_u8string_u32 [u32CharOfValue e v] e [] =
      (true,
        if v < 0x80 then [v]
        else if v < 0x800 then [0xc0 + v / 64, 0x80 + v % 64]
        else if v < 0x10000 then
          [0xe0 + v / 4096, 0x80 + v / 64 % 64, 0x80 + v % 64]
        else
          [0xf0 + v / 262144, 0x80 + v / 4096 % 64, 0x80 + v / 64 % 64,
           0x80 + v % 64]) ∧
    ((to_u8string_u32 [u32CharOfValue e 0x7f] e []).2.length = 1 ∧
     (to_u8string_u32 [u32CharOfValue e 0x80] e []).2.length = 2 ∧
     (to_u8string_u32 [u32CharOfValue e 0x7ff] e []).2.length = 2 ∧
     (to_u8string_u32 [u32CharOfValue e 0x800] e []).2.length = 3 ∧
     (to_u8string_u32 [u32CharOfValue e 0xffff] e []).2.length = 3 ∧
     (to_u8string_u32 [u32CharOfValue e 0x10000] e []).2.length = 4 ∧
     (to_u8string_u32 [u32CharOfValue e 0x10ffff] e []).2.length = 4) := by
  have hvv : u32_endian_value (u32CharOfValue e v) e = v :=
    u32_endian_value_layout e v he (by omega)
  constructor
  · simp only [to_u8string_u32]
    by_cases hA : v < 0x80
    · rw [u32_single_1byte _ _ he (by omega), hvv, if_pos hA]
    · by_cases hB : v < 0x800
      · rw [u32_single_2byte _ _ he (by omega) (by omega), hvv, if_neg hA, if_pos hB]
      · by_cases hC : v < 0x10000
        · rw [u32_single_3byte _ _ he (by omega) (by omega), hvv, if_neg hA,
            if_neg hB, if_pos hC]
        · rw [u32_single_4byte _ _ he (by omega) (by omega), hvv, if_neg hA,
            if_neg hB, if_neg hC]
  · interval_cases e <;>
      exact ⟨by decide, by decide, by decide, by decide, by decide, by decide, by decide⟩

/-- Witness for C4_byte_patterns at v 0x800, big-endian. -/
theorem C4_byte_patterns_witness :
    (0 < 2 ∧ 0x800 < 0x110000) ∧
    (to_u8string_u32 [u32CharOfValue 0 0x800] 0 [] =
      (true,
        if (0x800 : Nat) < 0x80 then [0x800]
        else if (0x800 : Nat) < 0x800 then [0xc0 + 0x800 / 64, 0x80 + 0x800 % 64]
        else if (0x800 : Nat) < 0x10000 then
          [0xe0 + 0x800 / 4096, 0x80 + 0x800 / 64 % 64, 0x80 + 0x800 % 64]
        else
          [0xf0 + 0x800 / 262144, 0x80 + 0x800 / 4096 % 64, 0x80 + 0x800 / 64 % 64,
           0x80 + 0x800 % 64]) ∧
     ((to_u8string_u32 [u32CharOfValue 0 0x7f] 0 []).2.length = 1 ∧
      (to_u8string_u32 [u32CharOfValue 0 0x80] 0 []).2.length = 2 ∧
      (to_u8string_u32 [u32CharOfValue 0 0x7ff] 0 []).2.length = 2 ∧
      (to_u8string_u32 [u32CharOfValue 0 0x800] 0 []).2.length = 3 ∧
      (to_u8string_u32 [u32CharOfValue 0 0xffff] 0 []).2.length = 3 ∧
      (to_u8string_u32 [u32CharOfValue 0 0x10000] 0 []).2.length = 4 ∧
      (to_u8string_u32 [u32CharOfValue 0 0x10ffff] 0 []).2.length = 4)) :=
  ⟨⟨by decide, by decide⟩, C4_byte_patterns 0x800 0 (by decide) (by decide)⟩

/-- Claim C9: the UTF-32 encoder performs no surrogate-range rejection: a
value in the surrogate band encodes successfully as an ordinary three-byte
sequence, while every value at or above 0x110000 is rejected with empty
output. -/
theorem C9_surrogate_passthrough (v w e : Nat) (he : e < 2)
    (hv1 : 0xd800 ≤ v) (hv2 : v ≤ 0xdfff)
    (hw1 : 0x110000 ≤ w) (hw2 : w < 4294967296) :
    to_u8string_u32 [u32CharOfValue e v] e [] =
      (true, [0xe0 + v / 4096, 0x80 + v / 64 % 64, 0x80 + v % 64]) ∧
    to_u8string_u32 [u32CharOfValue e w] e [] = (false, []) := by
  have hvv : u32_endian_value (u32CharOfValue e v) e = v :=
    u32_endian_value_layout e v he (by omega)
  have hww : u32_endian_value (u32CharOfValue e w) e = w :=
    u32_endian_value_layout e w he (by omega)
  constructor
  · simp only [to_u8string_u32]
    rw [u32_single_3byte _ _ he (by omega) (by omega), hvv]
  · simp only [to_u8string_u32]
    rw [u32_step_invalid _ _ _ he (by omega)]

/-- Witness for C9_surrogate_passthrough at v 0xd800, w 0x110000,
little-endian. -/
theorem C9_surrogate_passthrough_witness :
    (1 < 2 ∧ 0xd800 ≤ 0xd800 ∧ 0xd800 ≤ 0xdfff ∧ 0x110000 ≤ 0x110000 ∧
     0x110000 < 4294967296) ∧
    (to_u8string_u32 [u32CharOfValue 1 0xd800] 1 [] =
      (true, [0xe0 + 0xd800 / 4096, 0x80 + 0xd800 / 64 % 64, 0x80 + 0xd800 % 64]) ∧
     to_u8string_u32 [u32CharOfValue 1 0x110000] 1 [] = (false, [])) :=
  ⟨⟨by decide, by decide, by decide, by decide, by decide⟩,
   C9_surrogate_passthrough 0xd800 0x110000 1 (by decide) (by decide) (by decide)
     (by decide) (by decide)⟩

/-- A valid element prepends its bytes and otherwise leaves the encoder's
result unchanged, whatever list follows. -/
theorem u32_step_valid (c : Utf32Char) (e : Nat) (he : e < 2)
    (hval : u32_endian_value c e < 0x110000) :
    ∃ B : List Nat, ∀ M : List Utf32Char,
      convert_u32str_to_u8str_without_bom (c :: M) e =
        ((convert_u32str_to_u8str_without_bom M e).1,
         B ++ (convert_u32str_to_u8str_without_bom M e).2) := by
  by_cases hA : u32_endian_value c e < 0x80
  · exact ⟨[u32_endian_value c e], fun M => by rw [u32_step_1byte c M e he hA]; rfl⟩
  · by_cases hB : u32_endian_value c e < 0x800
    · exact ⟨[0xc0 + u32_endian_value c e / 64, 0x80 + u32_endian_value c e % 64],
        fun M => by rw [u32_step_2byte c M e he (by omega) hB]; rfl⟩
    · by_cases hC : u32_endian_value c e < 0x10000
      · exact ⟨[0xe0 + u32_endian_value c e / 4096,
                0x80 + u32_endian_value c e / 64 % 64,
                0x80 + u32_endian_value c e % 64],
          fun M => by rw [u32_step_3byte c M e he (by omega) hC]; rfl⟩
      · exact ⟨[0xf0 + u32_endian_value c e / 262144,
                0x80 + u32_endian_value c e / 4096 % 64,
                0x80 + u32_endian_value c e / 64 % 64,
                0x80 + u32_endian_value c e % 64],
          fun M => by rw [u32_step_4byte c M e he (by omega) hval]; rfl⟩

/-- The encoder's failure on the first invalid element, given that the
elements before it all encode. -/
theorem u32_conv_append_fail (pre suf : List Utf32Char) (x : Utf32Char) (e : Nat)
    (hok : (convert_u32str_to_u8str_without_bom pre e).1 = true)
    (hbad : 2 ≤ e ∨ 0x110000 ≤ u32_endian_value x e) :
    convert_u32str_to_u8str_without_bom (pre ++ x :: suf) e =
      (false, (convert_u32str_to_u8str_without_bom pre e).2) := by
  induction pre with
  | nil =>
    rcases hbad with h | h
    · rw [List.nil_append, u32_step_bad_endian x suf e h]
      rfl
    · by_cases he : e < 2
      · rw [List.nil_append, u32_step_invalid x suf e he h]
        rfl
      · rw [List.nil_append, u32_step_bad_endian x suf e (by omega)]
        rfl
  | cons c pre ih =>
    have he2 : e < 2 := by
      by_contra h
      rw [u32_step_bad_endian c pre e (by omega)] at hok
      simp at hok
    have hval : u32_endian_value c e < 0x110000 := by
      by_contra h
      rw [u32_step_invalid c pre e he2 (by omega)] at hok
      simp at hok
    obtain ⟨B, hB⟩ := u32_step_valid c e he2 hval
    rw [hB pre] at hok
    simp only at hok
    rw [List.cons_append, hB (pre ++ x :: suf), hB pre, ih hok]

/-- Claim C6: when the UTF-32 encoder fails on an element (value at or above
0x110000, or unrecognized endianness), it stops at once: the returned buffer
holds exactly the bytes of the elements before the failing one and nothing
for it; and the result never depends on what the caller's target buffer held
before the call (it is cleared on entry). -/
theorem C6_fail_fast (pre suf : List Utf32Char) (x : Utf32Char) (e : Nat)
    (prev : List Nat)
    (hok : (convert_u32str_to_u8str_without_bom pre e).1 = true)
    (hbad : 2 ≤ e ∨ 0x110000 ≤ u32_endian_value x e) :
    to_u8string_u32 (pre ++ x :: suf) e prev =
      (false, (to_u8string_u32 pre e prev).2) ∧
    to_u8string_u32 (pre ++ x :: suf) e prev =
      to_u8string_u32 (pre ++ x :: suf) e [] := by
  exact ⟨u32_conv_append_fail pre suf x e hok hbad, rfl⟩

/-- Witness for C6_fail_fast: one valid element, then 0x110000, then a
valid trailing element, little-endian, with nonempty previous target. -/
theorem C6_fail_fast_witness :
    ((convert_u32str_to_u8str_without_bom [u32CharOfValue 1 0x41] 1).1 = true ∧
     (2 ≤ 1 ∨ 0x110000 ≤ u32_endian_value (u32CharOfValue 1 0x110000) 1)) ∧
    (to_u8string_u32 ([u32CharOfValue 1 0x41] ++ u32CharOfValue 1 0x110000 ::
        [u32CharOfValue 1 0x42]) 1 [9, 9] =
      (false, (to_u8string_u32 [u32CharOfValue 1 0x41] 1 [9, 9]).2) ∧
     to_u8string_u32 ([u32CharOfValue 1 0x41] ++ u32CharOfValue 1 0x110000 ::
        [u32CharOfValue 1 0x42]) 1 [9, 9] =
      to_u8string_u32 ([u32CharOfValue 1 0x41] ++ u32CharOfValue 1 0x110000 ::
        [u32CharOfValue 1 0x42]) 1 []) :=
  ⟨⟨by decide, by decide⟩,
   C6_fail_fast [u32CharOfValue 1 0x41] [u32CharOfValue 1 0x42]
     (u32CharOfValue 1 0x110000) 1 [9, 9] (by decide) (by decide)⟩

/-- Claim C7: a lead surrogate followed by a valid trail unit is combined as
0x10000 plus the lead's low ten bits shifted up ten plus the trail's low ten
bits, emitted as a four-byte sequence while consuming both units; the pair
for U+1F600 yields that codepoint's four bytes under either endianness; and
a lone lead surrogate at the end of the buffer fails. -/
theorem C7_surrogate_pair (lead trail e : Nat) (rest : List Utf16Char)
    (he : e < 2) (hl1 : 0xd800 ≤ lead) (hl2 : lead < 0xdc00)
    (ht1 : 0xdc00 ≤ trail) (ht2 : trail < 0xe000) :
    (convert_u16str_to_u8str_without_bom
        (u16CharOfValue e lead :: u16CharOfValue e trail :: rest) e =
      ((convert_u16str_to_u8str_without_bom rest e).1,
       (0xf0 + (0x10000 + (lead - 0xd800) * 1024 + (trail - 0xdc00)) / 262144) ::
       (0x80 + (0x10000 + (lead - 0xd800) * 1024 + (trail - 0xdc00)) / 4096 % 64) ::
       (0x80 + (0x10000 + (lead - 0xd800) * 1024 + (trail - 0xdc00)) / 64 % 64) ::
       (0x80 + (0x10000 + (lead - 0xd800) * 1024 + (trail - 0xdc00)) % 64) ::
       (convert_u16str_to_u8str_without_bom rest e).2)) ∧
    to_u8string_u16 [u16CharOfValue e 0xd83d, u16CharOfValue e 0xde00] e [] =
      (true, [0xf0, 0x9f, 0x98, 0x80]) ∧
    to_u8string_u16 [u16CharOfValue e lead] e [] = (false, []) := by
  have hL : get_u16_endian_value (u16CharOfValue e lead) e = lead :=
    get_u16_endian_value_layout e lead he (by omega)
  have hT : get_u16_endian_value (u16CharOfValue e trail) e = trail :=
    get_u16_endian_value_layout e trail he (by omega)
  refine ⟨?_, ?_, ?_⟩
  · rw [u16_step_pair _ _ rest e (by rw [hL]; omega) (by rw [hL]; omega)
      (by rw [hT]; omega) (by rw [hT]; omega), hL, hT]
    have hcp : (lead - 0xd800) * 1024 + (trail - 0xdc00) + 0x10000
             = 0x10000 + (lead - 0xd800) * 1024 + (trail - 0xdc00) := by omega
    rw [hcp]
  · interval_cases e <;> decide
  · simp only [to_u8string_u16]
    exact u16_step_lone_lead _ e (by rw [hL]; omega) (by rw [hL]; omega)

/-- Witness for C7_surrogate_pair at the U+1F600 pair, little-endian. -/
theorem C7_surrogate_pair_witness :
    (1 < 2 ∧ 0xd800 ≤ 0xd83d ∧ 0xd83d < 0xdc00 ∧ 0xdc00 ≤ 0xde00 ∧ 0xde00 < 0xe000) ∧
    ((convert_u16str_to_u8str_without_bom
        (u16CharOfValue 1 0xd83d :: u16CharOfValue 1 0xde00 :: []) 1 =
      ((convert_u16str_to_u8str_without_bom [] 1).1,
       (0xf0 + (0x10000 + (0xd83d - 0xd800) * 1024 + (0xde00 - 0xdc00)) / 262144) ::
       (0x80 + (0x10000 + (0xd83d - 0xd800) * 1024 + (0xde00 - 0xdc00)) / 4096 % 64) ::
       (0x80 + (0x10000 + (0xd83d - 0xd800) * 1024 + (0xde00 - 0xdc00)) / 64 % 64) ::
       (0x80 + (0x10000 + (0xd83d - 0xd800) * 1024 + (0xde00 - 0xdc00)) % 64) ::
       (convert_u16str_to_u8str_without_bom [] 1).2)) ∧
     to_u8string_u16 [u16CharOfValue 1 0xd83d, u16CharOfValue 1 0xde00] 1 [] =
       (true, [0xf0, 0x9f, 0x98, 0x80]) ∧
     to_u8string_u16 [u16CharOfValue 1 0xd83d] 1 [] = (false, [])) :=
  ⟨⟨by decide, by decide, by decide, by decide, by decide⟩,
   C7_surrogate_pair 0xd83d 0xde00 1 [] (by decide) (by decide) (by decide)
     (by decide) (by decide)⟩

/-- Claim C8: a unit in the trail-surrogate band reached as the head of the
remaining input (hence not consumed as the trail of a preceding lead) is not
rejected: it falls through to the three-byte branch and is emitted as an
ordinary three-byte sequence, and conversion continues. -/
theorem C8_lone_trail (v e : Nat) (rest : List Utf16Char) (he : e < 2)
    (h1 : 0xdc00 ≤ v) (h2 : v < 0xe000) :
    convert_u16str_to_u8str_without_bom (u16CharOfValue e v :: rest) e =
      ((convert_u16str_to_u8str_without_bom rest e).1,
       (0xe0 + v / 4096) :: (0x80 + v / 64 % 64) :: (0x80 + v % 64) ::
       (convert_u16str_to_u8str_without_bom rest e).2) := by
  have hV : get_u16_endian_value (u16CharOfValue e v) e = v :=
    get_u16_endian_value_layout e v he (by omega)
  rw [u16_step_3byte _ rest e (by rw [hV]; omega) (by rw [hV]; omega)
    (by rw [hV]; omega), hV]

/-- Witness for C8_lone_trail at 0xDC00, big-endian, empty tail. -/
theorem C8_lone_trail_witness :
    (0 < 2 ∧ 0xdc00 ≤ 0xdc00 ∧ 0xdc00 < 0xe000) ∧
    convert_u16str_to_u8str_without_bom (u16CharOfValue 0 0xdc00 :: []) 0 =
      ((convert_u16str_to_u8str_without_bom [] 0).1,
       (0xe0 + 0xdc00 / 4096) :: (0x80 + 0xdc00 / 64 % 64) :: (0x80 + 0xdc00 % 64) ::
       (convert_u16str_to_u8str_without_bom [] 0).2) :=
  ⟨⟨by decide, by decide, by decide⟩,
   C8_lone_trail 0xdc00 0 [] (by decide) (by decide) (by decide)⟩

/-- Counterexample to claim C3: the lead surrogate 0xD800 followed by the
unit 0xE000 - a value outside the trail band, which the claim says must be
rejected - is accepted: the conversion succeeds and combines the two units
into a four-byte sequence (big-endian layout shown). -/
theorem C3_counterexample :
    to_u8string_u16 [u16CharOfValue 0 0xd800, u16CharOfValue 0 0xe000] 0 [] =
      (true, [0xf0, 0x90, 0x90, 0x80]) := by decide

/-- Claim C3 amended: a lead surrogate followed by a next unit fails
(InvalidSurrogatePair) exactly when the next unit's value is below 0xDC00;
a following value at or above 0xE000 is not rejected but combined, and the
conversion proceeds. -/
theorem C3_amended (lead nxt e : Nat) (rest : List Utf16Char) (he : e < 2)
    (hl1 : 0xd800 ≤ lead) (hl2 : lead < 0xdc00) (hn : nxt < 0x10000) :
    (nxt < 0xdc00 →
      convert_u16str_to_u8str_without_bom
        (u16CharOfValue e lead :: u16CharOfValue e nxt :: rest) e = (false, [])) ∧
    (0xdc00 ≤ nxt →
      (convert_u16str_to_u8str_without_bom
        (u16CharOfValue e lead :: u16CharOfValue e nxt :: rest) e).1 =
      (convert_u16str_to_u8str_without_bom rest e).1) := by
  have hL : get_u16_endian_value (u16CharOfValue e lead) e = lead :=
    get_u16_endian_value_layout e lead he (by omega)
  have hN : get_u16_endian_value (u16CharOfValue e nxt) e = nxt :=
    get_u16_endian_value_layout e nxt he hn
  constructor
  · intro h
    exact u16_step_pair_invalid _ _ rest e (by rw [hL]; omega) (by rw [hL]; omega)
      (by rw [hN]; omega)
  · intro h
    rw [u16_step_pair_raw _ _ rest e (by rw [hL]; omega) (by rw [hL]; omega)
      (by rw [hN]; omega)]

/-- Witness for C3_amended at lead 0xD800 with next unit 0xE000,
little-endian. -/
theorem C3_amended_witness :
    (1 < 2 ∧ 0xd800 ≤ 0xd800 ∧ 0xd800 < 0xdc00 ∧ 0xe000 < 0x10000 ∧
     ¬ (0xe000 : Nat) < 0xdc00 ∧ 0xdc00 ≤ 0xe000) ∧
    (convert_u16str_to_u8str_without_bom
        (u16CharOfValue 1 0xd800 :: u16CharOfValue 1 0xe000 :: []) 1).1 =
      (convert_u16str_to_u8str_without_bom [] 1).1 :=
  ⟨⟨by decide, by decide, by decide, by decide, by decide, by decide⟩,
   (C3_amended 0xd800 0xe000 1 [] (by decide) (by decide) (by decide)
     (by decide)).2 (by decide)⟩

/-- Claim C2 evaluated on the failing input: a buffer whose first unit is
the big-endian BOM (bytes fe ff) followed by the unit for the letter A is
rejected by the BOM-aware UTF-16 entry point, because the source matches the
BOM against the unit at index 1 rather than index 0; the behavior the claim
describes would detect the BOM, strip it, and succeed - converting the
remaining unit with big-endian order yields the single byte 0x41, as the
second conjunct shows. -/
theorem C2_bom_bug :
    to_u8string_u16_bom [⟨0xfe, 0xff⟩, ⟨0x00, 0x41⟩] = (false, []) ∧
    convert_u16str_to_u8str_without_bom [⟨0x00, 0x41⟩] UTF_ENDIAN_BIG_ENDIAN =
      (true, [0x41]) := by decide

/-- Claim C10: the decoder's successful outputs are not confined to the
Unicode codepoint range: the well-classified four-byte input f7 bf bf bf
decodes successfully under either target endianness to the value 0x1FFFFF,
which is strictly greater than 0x10FFFF. -/
theorem C10_above_unicode :
    to_u32string [0xf7, 0xbf, 0xbf, 0xbf] 1 false =
      (true, [u32CharOfValue 1 0x1fffff]) ∧
    to_u32string [0xf7, 0xbf, 0xbf, 0xbf] 0 false =
      (true, [u32CharOfValue 0 0x1fffff]) ∧
    (0x10ffff : Nat) < 0x1fffff := by decide

/-- Failure of the little-endian UTF-8 decoder coincides with the claim-side
failure condition. -/
theorem u8_fail_le_aux : ∀ (n : Nat) (bs : List Nat), bs.length ≤ n →
    ((convert_u8str_to_u32str_little_endian bs).1 = false ↔ u8FailSpec bs = true) := by
  intro n
  induction n with
  | zero =>
    intro bs h
    have hbs : bs = [] := List.eq_nil_of_length_eq_zero (by omega)
    subst hbs
    simp [convert_u8str_to_u32str_little_endian, u8FailSpec]
  | succ n ih =>
    intro bs h
    rcases bs with _ | ⟨b0, rest⟩
    · simp [convert_u8str_to_u32str_little_endian, u8FailSpec]
    · rw [convert_u8str_to_u32str_little_endian.eq_def, u8FailSpec.eq_def]
      simp only [List.length_cons] at h
      by_cases h4 : ((b0 &&& 0xf0) == 0xf0) = true
      · simp only [h4, if_true]
        rcases rest with _ | ⟨b1, rest⟩
        · simp
        · rcases rest with _ | ⟨b2, rest⟩
          · simp
          · rcases rest with _ | ⟨b3, rest⟩
            · simp
            · simp only [List.length_cons]
              rw [if_neg (by omega)]
              simp only [List.drop_succ_cons, List.drop_zero]
              simpa using ih rest (by simp at h; omega)
      · simp only [(by simpa using h4 : ((b0 &&& 0xf0) == 0xf0) = false), if_false,
          Bool.false_eq_true]
        by_cases h3 : ((b0 &&& 0xe0) == 0xe0) = true
        · simp only [h3, if_true]
          rcases rest with _ | ⟨b1, rest⟩
          · simp
          · rcases rest with _ | ⟨b2, rest⟩
            · simp
            · simp only [List.length_cons]
              rw [if_neg (by omega)]
              simp only [List.drop_succ_cons, List.drop_zero]
              simpa using ih rest (by simp at h; omega)
        · simp only [(by simpa using h3 : ((b0 &&& 0xe0) == 0xe0) = false), if_false,
            Bool.false_eq_true]
          by_cases h2 : ((b0 &&& 0xc0) == 0xc0) = true
          · simp only [h2, if_true]
            rcases rest with _ | ⟨b1, rest⟩
            · simp
            · simp only [List.length_cons]
              rw [if_neg (by omega)]
              simp only [List.drop_succ_cons, List.drop_zero]
              simpa using ih rest (by simp at h; omega)
          · simp only [(by simpa using h2 : ((b0 &&& 0xc0) == 0xc0) = false), if_false,
              Bool.false_eq_true]
            by_cases h1 : ((b0 &&& 0x7f) == b0) = true
            · simp only [h1, if_true]
              simpa using ih rest (by omega)
            · simp only [(by simpa using h1 : ((b0 &&& 0x7f) == b0) = false), if_false,
                Bool.false_eq_true]

/-- Failure of the big-endian UTF-8 decoder coincides with the claim-side
failure condition. -/
theorem u8_fail_be_aux : ∀ (n : Nat) (bs : List Nat), bs.length ≤ n →
    ((convert_u8str_to_u32str_big_endian bs).1 = false ↔ u8FailSpec bs = true) := by
  intro n
  induction n with
  | zero =>
    intro bs h
    have hbs : bs = [] := List.eq_nil_of_length_eq_zero (by omega)
    subst hbs
    simp [convert_u8str_to_u32str_big_endian, u8FailSpec]
  | succ n ih =>
    intro bs h
    rcases bs with _ | ⟨b0, rest⟩
    · simp [convert_u8str_to_u32str_big_endian, u8FailSpec]
    · rw [convert_u8str_to_u32str_big_endian.eq_def, u8FailSpec.eq_def]
      simp only [List.length_cons] at h
      by_cases h4 : ((b0 &&& 0xf0) == 0xf0) = true
      · simp only [h4, if_true]
        rcases rest with _ | ⟨b1, rest⟩
        · simp
        · rcases rest with _ | ⟨b2, rest⟩
          · simp
          · rcases rest with _ | ⟨b3, rest⟩
            · simp
            · simp only [List.length_cons]
              rw [if_neg (by omega)]
              simp only [List.drop_succ_cons, List.drop_zero]
              simpa using ih rest (by simp at h; omega)
      · simp only [(by simpa using h4 : ((b0 &&& 0xf0) == 0xf0) = false), if_false,
          Bool.false_eq_true]
        by_cases h3 : ((b0 &&& 0xe0) == 0xe0) = true
        · simp only [h3, if_true]
          rcases rest with _ | ⟨b1, rest⟩
          · simp
          · rcases rest with _ | ⟨b2, rest⟩
            · simp
            · simp only [List.length_cons]
              rw [if_neg (by omega)]
              simp only [List.drop_succ_cons, List.drop_zero]
              simpa using ih rest (by simp at h; omega)
        · simp only [(by simpa using h3 : ((b0 &&& 0xe0) == 0xe0) = false), if_false,
            Bool.false_eq_true]
          by_cases h2 : ((b0 &&& 0xc0) == 0xc0) = true
          · simp only [h2, if_true]
            rcases rest with _ | ⟨b1, rest⟩
            · simp
            · simp only [List.length_cons]
              rw [if_neg (by omega)]
              simp only [List.drop_succ_cons, List.drop_zero]
              simpa using ih rest (by simp at h; omega)
          · simp only [(by simpa using h2 : ((b0 &&& 0xc0) == 0xc0) = false), if_false,
              Bool.false_eq_true]
            by_cases h1 : ((b0 &&& 0x7f) == b0) = true
            · simp only [h1, if_true]
              simpa using ih rest (by omega)
            · simp only [(by simpa using h1 : ((b0 &&& 0x7f) == b0) = false), if_false,
                Bool.false_eq_true]

/-- Claim C5: the UTF-8 decoder fails exactly when some position reached as
a lead byte carries a stray continuation byte (high bit set, matching none
of the lead masks) or classifies to a sequence length needing more bytes
than remain; continuation bytes are never inspected (a two-byte lead
followed by an arbitrary byte succeeds) and overlong encodings are accepted
(c0 80 decodes to the value 0); in particular the sole byte 0x80 fails and
a three-byte lead with no continuation bytes fails. -/
theorem C5_failure_characterization :
    (∀ (bs : List Nat) (e : Nat) (bom : Bool),
      (to_u32string bs e bom).1 = false ↔ u8FailSpec bs = true) ∧
    (∀ c1 : Nat,
      (convert_u8str_to_u32str_little_endian [0xc2, c1]).1 = true ∧
      (convert_u8str_to_u32str_big_endian [0xc2, c1]).1 = true) ∧
    to_u32string [0xc0, 0x80] 1 false = (true, [⟨0, 0, 0, 0⟩]) ∧
    (to_u32string [0x80] 1 false).1 = false ∧
    (to_u32string [0xe3] 1 false).1 = false := by
  refine ⟨?_, ?_, by decide, by decide, by decide⟩
  · intro bs e bom
    simp only [to_u32string]
    by_cases he : (e == UTF_ENDIAN_LITTLE_ENDIAN) = true
    · simp only [he, if_true]
      exact u8_fail_le_aux bs.length bs le_rfl
    · simp only [(by simpa using he : (e == UTF_ENDIAN_LITTLE_ENDIAN) = false),
        if_false]
      exact u8_fail_be_aux bs.length bs le_rfl
  · intro c1
    have e1 : ((0xc2 &&& 0xf0) == (0xf0 : Nat)) = false := by decide
    have e2 : ((0xc2 &&& 0xe0) == (0xe0 : Nat)) = false := by decide
    have e3 : ((0xc2 &&& 0xc0) == (0xc0 : Nat)) = true := by decide
    constructor
    · rw [convert_u8str_to_u32str_little_endian.eq_def]
      simp [e1, e2, e3, convert_u8str_to_u32str_little_endian]
    · rw [convert_u8str_to_u32str_big_endian.eq_def]
      simp [e1, e2, e3, convert_u8str_to_u32str_big_endian]
